import Mathlib

/-!
Verification of the WishCo branch-portal request workflow
(src/app_branch_request.py) against its natural-language specification.

The Python source is shallowly embedded below:
* strings are `List Char` (`Str`) for code whose claims need structural
  string reasoning, and `String` for the column resolver and password check;
* the remote spreadsheet is an explicit value (`SheetsStore`): a grid of
  rows, each row a list of cells, first row the header;
* the ambient Streamlit session state (`sel_map` / `qty_map`) is an explicit
  `SessionMaps` value;
* fallible external calls (pandas `.iloc[0]` on an empty frame, gspread
  `append_rows`) are modelled with `Option` / injected failure flags;
* the current date (`time.strftime`) is a parameter.
-/

-- ---------------------------------------------------------------------------
-- Basic string model (Python str as a list of characters)
-- ---------------------------------------------------------------------------

abbrev Str := List Char

/-- Python `str.upper` restricted to the characters involved (ASCII case map,
identity elsewhere), as in `username.strip().upper()`. -/
def upperStr (s : Str) : Str := s.map Char.toUpper

/-- The whitespace set of Python `str.strip()`. -/
def isSpaceChar (c : Char) : Bool :=
  c == ' ' || c == '\t' || c == '\n' || c == '\r' || c == '\x0b' || c == '\x0c'

/-- Python `str.strip()`. -/
def trimStr (s : Str) : Str :=
  ((s.dropWhile isSpaceChar).reverse.dropWhile isSpaceChar).reverse

/-- Python `str.isdigit` on a single ASCII character. -/
def isDigitChar (c : Char) : Bool :=
  decide (48 ≤ c.toNat) && decide (c.toNat ≤ 57)

/-- Numeric value of an ASCII digit character. -/
def digitVal (c : Char) : Nat := c.toNat - 48

/-- `int(s)` for the two-character digit suffixes scanned by the generator. -/
def parse2 (s : Str) : Nat :=
  match s with
  | [a, b] => 10 * digitVal a + digitVal b
  | _ => 0

/-- The ASCII digit character for a value `0..9`. -/
def digitChar (d : Nat) : Char :=
  match d with
  | 0 => '0' | 1 => '1' | 2 => '2' | 3 => '3' | 4 => '4'
  | 5 => '5' | 6 => '6' | 7 => '7' | 8 => '8' | _ => '9'

/-- Python `f"{n:02d}"` for `n ≤ 99`, the only range the generator emits. -/
def pad2 (n : Nat) : Str := [digitChar (n / 10), digitChar (n % 10)]

-- ---------------------------------------------------------------------------
-- Sequence Generator (`_generate_order_id_from_requests`)
-- ---------------------------------------------------------------------------

/-- `prefix = f"{uname}{ymd}-"` with `uname = (username or "").strip().upper()`;
`ymd` is the `time.strftime("%y%m%d")` result, passed as a parameter. -/
def orderPref (username ymd : Str) : Str :=
  upperStr (trimStr username) ++ ymd ++ ['-']

/-- `rid = r[1] if len(r) > 1 else ""` — the RequestID cell of a scanned row. -/
def ridOf (r : List Str) : Str := r.getD 1 []

/-- The run number one scanned row contributes to `max_run`:
`int(rid[len(prefix):len(prefix)+2])` when `rid.startswith(prefix)`,
`len(rid) >= len(prefix)+2` and the two characters are digits; otherwise the
row leaves `max_run` unchanged (contribution 0). -/
def runOfRid (p rid : Str) : Nat :=
  if p.isPrefixOf rid = true ∧ p.length + 2 ≤ rid.length then
    if ((rid.drop p.length).take 2).all isDigitChar = true then
      parse2 ((rid.drop p.length).take 2)
    else 0
  else 0

/-- The `max_run` loop of `_generate_order_id_from_requests`, over the data
rows (`vals[1:]`). -/
def maxRun (rows : List (List Str)) (p : Str) : Nat :=
  rows.foldl (fun m r => max m (runOfRid p (ridOf r))) 0

/-- `_generate_order_id_from_requests(ss, username)`: `vals` is the full
Requests grid returned by `get_all_values()` (header first); the result is
`f"{prefix}{min(max_run+1,99):02d}"`. -/
def generate_order_id (vals : List (List Str)) (username ymd : Str) : Str :=
  orderPref username ymd ++
    pad2 (min (maxRun (vals.drop 1) (orderPref username ymd) + 1) 99)

-- ---------------------------------------------------------------------------
-- Lemmas about the generator
-- ---------------------------------------------------------------------------

theorem digitVal_digitChar (d : Nat) (h : d ≤ 9) :
    digitVal (digitChar d) = d := by
  interval_cases d <;> rfl

theorem isDigitChar_digitChar (d : Nat) (h : d ≤ 9) :
    isDigitChar (digitChar d) = true := by
  interval_cases d <;> rfl

theorem pad2_all_digits (n : Nat) (h : n ≤ 99) :
    (pad2 n).all isDigitChar = true := by
  have h1 : n / 10 ≤ 9 := by omega
  have h2 : n % 10 ≤ 9 := by omega
  simp [pad2, List.all_cons, isDigitChar_digitChar _ h1, isDigitChar_digitChar _ h2]

theorem parse2_pad2 (n : Nat) (h : n ≤ 99) : parse2 (pad2 n) = n := by
  have h1 : n / 10 ≤ 9 := by omega
  have h2 : n % 10 ≤ 9 := by omega
  simp [pad2, parse2, digitVal_digitChar _ h1, digitVal_digitChar _ h2]
  omega

theorem runOfRid_append_pad2 (p : Str) (n : Nat) (h : n ≤ 99) :
    runOfRid p (p ++ pad2 n) = n := by
  have hpre : p.isPrefixOf (p ++ pad2 n) = true := by
    rw [List.isPrefixOf_iff_prefix]
    exact List.prefix_append p (pad2 n)
  have hdrop : (p ++ pad2 n).drop p.length = pad2 n := List.drop_left p (pad2 n)
  have hlen : p.length + 2 ≤ (p ++ pad2 n).length := by
    simp [List.length_append, pad2]
  have htake : (pad2 n).take 2 = pad2 n := by simp [pad2]
  rw [runOfRid, if_pos ⟨hpre, hlen⟩, hdrop, htake,
    if_pos (pad2_all_digits n h), parse2_pad2 n h]

theorem runOfRid_not_pref (p rid : Str) (h : ¬ p.isPrefixOf rid = true) :
    runOfRid p rid = 0 := by
  rw [runOfRid, if_neg]
  intro hc
  exact h hc.1

theorem foldl_maxRun_const (p : Str) (rows : List (List Str)) (m : Nat)
    (h : ∀ r ∈ rows, runOfRid p (ridOf r) = 0) :
    rows.foldl (fun m r => max m (runOfRid p (ridOf r))) m = m := by
  induction rows generalizing m with
  | nil => rfl
  | cons r rows ih =>
    rw [List.foldl_cons, h r (List.mem_cons_self r rows), Nat.max_zero]
    exact ih m (fun r' hr' => h r' (List.mem_cons_of_mem r hr'))

theorem maxRun_eq_zero (rows : List (List Str)) (p : Str)
    (h : ∀ r ∈ rows, ¬ p.isPrefixOf (ridOf r) = true) :
    maxRun rows p = 0 :=
  foldl_maxRun_const p rows 0 (fun r hr => runOfRid_not_pref p _ (h r hr))

theorem maxRun_append_single (rows : List (List Str)) (r : List Str) (p : Str) :
    maxRun (rows ++ [r]) p = max (maxRun rows p) (runOfRid p (ridOf r)) := by
  simp [maxRun, List.foldl_append]

theorem init_le_foldl_maxRun (p : Str) (rows : List (List Str)) (m : Nat) :
    m ≤ rows.foldl (fun m r => max m (runOfRid p (ridOf r))) m := by
  induction rows generalizing m with
  | nil => exact Nat.le_refl m
  | cons r rows ih =>
    rw [List.foldl_cons]
    exact Nat.le_trans (Nat.le_max_left _ _) (ih _)

theorem mem_le_maxRun (rows : List (List Str)) (p : Str) (r : List Str)
    (hr : r ∈ rows) : runOfRid p (ridOf r) ≤ maxRun rows p := by
  rw [maxRun]
  generalize 0 = m
  induction rows generalizing m with
  | nil => cases hr
  | cons s rows ih =>
    rw [List.foldl_cons]
    rcases List.mem_cons.mp hr with h | h
    · subst h
      exact Nat.le_trans (Nat.le_max_right _ _) (init_le_foldl_maxRun p rows _)
    · exact ih h _

theorem foldl_maxRun_lt (p : Str) (rows : List (List Str)) (n : Nat) (m : Nat)
    (hm : m < n) (h : ∀ r ∈ rows, runOfRid p (ridOf r) < n) :
    rows.foldl (fun m r => max m (runOfRid p (ridOf r))) m < n := by
  induction rows generalizing m with
  | nil => exact hm
  | cons r rows ih =>
    rw [List.foldl_cons]
    exact ih _ (Nat.max_lt.mpr ⟨hm, h r (List.mem_cons_self r rows)⟩)
      (fun r' hr' => h r' (List.mem_cons_of_mem r hr'))

theorem maxRun_lt (rows : List (List Str)) (p : Str) (n : Nat) (hn : 0 < n)
    (h : ∀ r ∈ rows, runOfRid p (ridOf r) < n) : maxRun rows p < n :=
  foldl_maxRun_lt p rows n 0 hn h

-- ---------------------------------------------------------------------------
-- C9: prefix isolation
-- ---------------------------------------------------------------------------

/-- C9: for two Sequence Generator calls with usernames that differ after
trimming and case folding, or with two different dates (each a six-character
`YYMMDD` string, as `time.strftime("%y%m%d")` always produces), the computed
identifier prefixes `UPPER(username)+YYMMDD+"-"` are never equal. -/
theorem c9_prefix_isolation (u1 u2 d1 d2 : Str)
    (h1 : d1.length = 6) (h2 : d2.length = 6)
    (hne : upperStr (trimStr u1) ≠ upperStr (trimStr u2) ∨ d1 ≠ d2) :
    orderPref u1 d1 ≠ orderPref u2 d2 := by
  intro heq
  rw [orderPref, orderPref, List.append_assoc, List.append_assoc] at heq
  have hlen : (d1 ++ ['-']).length = (d2 ++ ['-']).length := by
    simp [List.length_append, h1, h2]
  have hinj := List.append_inj' heq hlen
  have hd : d1 = d2 := by
    have := hinj.2
    have hl : d1.length = d2.length := by rw [h1, h2]
    exact (List.append_inj this hl).1
  rcases hne with hu | hdne
  · exact hu hinj.1
  · exact hdne hd

/-- Witness for C9 at concrete inputs: usernames `"alice"` and `"bob"` on the
same date give distinct prefixes. -/
theorem c9_witness :
    orderPref ['a', 'l', 'i', 'c', 'e'] ['2', '4', '0', '6', '0', '1'] ≠
      orderPref ['b', 'o', 'b'] ['2', '4', '0', '6', '0', '1'] :=
  c9_prefix_isolation _ _ _ _ (by decide) (by decide) (Or.inl (by decide))

-- ---------------------------------------------------------------------------
-- C1: sequence monotonicity under the insert-then-call discipline
-- ---------------------------------------------------------------------------

/-- The fixed per-submission cells of a Requests row built in `page_issue`
(`[now, order_id, username, branch_code, itemcode, itemname, qty, "Pending", ""]`);
only the identifier at index 1 varies across the C1 iteration. -/
structure ReqRowCtx where
  now : Str
  un : Str
  bc : Str
  ic : Str
  iname : Str
  qtyCell : Str
  stt : Str
  note : Str

/-- One appended Requests row carrying order id `oid` at index 1. -/
def mkReqRow (c : ReqRowCtx) (oid : Str) : List Str :=
  [c.now, oid, c.un, c.bc, c.ic, c.iname, c.qtyCell, c.stt, c.note]

/-- The C1 iteration: starting from the grid `hdr :: rest`, each call to the
generator appends one row carrying the returned identifier before the next
call scans the grid again. -/
def seqState (hdr : List Str) (rest : List (List Str)) (c : ReqRowCtx)
    (username ymd : Str) : Nat → List (List Str)
  | 0 => hdr :: rest
  | Nat.succ k =>
    seqState hdr rest c username ymd k ++
      [mkReqRow c (generate_order_id (seqState hdr rest c username ymd k) username ymd)]

theorem ridOf_mkReqRow (c : ReqRowCtx) (oid : Str) : ridOf (mkReqRow c oid) = oid := rfl

theorem seqState_length_pos (hdr : List Str) (rest : List (List Str))
    (c : ReqRowCtx) (username ymd : Str) (k : Nat) :
    1 ≤ (seqState hdr rest c username ymd k).length := by
  cases k with
  | zero => simp [seqState]
  | succ k => simp [seqState, List.length_append]

theorem seqState_maxRun (hdr : List Str) (rest : List (List Str)) (c : ReqRowCtx)
    (username ymd : Str)
    (H : ∀ r ∈ rest, ¬ (orderPref username ymd).isPrefixOf (ridOf r) = true) :
    ∀ k, maxRun ((seqState hdr rest c username ymd k).drop 1)
      (orderPref username ymd) = min k 99 := by
  intro k
  induction k with
  | zero =>
    simp only [seqState, List.drop_succ_cons, List.drop_zero]
    rw [maxRun_eq_zero rest _ H]
    omega
  | succ k ih =>
    have hgen : generate_order_id (seqState hdr rest c username ymd k) username ymd
        = orderPref username ymd ++ pad2 (min (k + 1) 99) := by
      rw [generate_order_id, ih]
      have : min (min k 99 + 1) 99 = min (k + 1) 99 := by omega
      rw [this]
    have hpos := seqState_length_pos hdr rest c username ymd k
    have hdrop : ((seqState hdr rest c username ymd k ++
        [mkReqRow c (generate_order_id (seqState hdr rest c username ymd k) username ymd)]).drop 1)
        = (seqState hdr rest c username ymd k).drop 1 ++
          [mkReqRow c (generate_order_id (seqState hdr rest c username ymd k) username ymd)] := by
      rw [List.drop_append_eq_append_drop]
      have : 1 - (seqState hdr rest c username ymd k).length = 0 := by omega
      rw [this, List.drop_zero]
    rw [seqState, hdrop, maxRun_append_single, ih, ridOf_mkReqRow, hgen,
      runOfRid_append_pad2 _ _ (by omega)]
    omega

/-- C1: for a fixed username and date, starting from a Requests grid
(header plus data rows) in which no data row's identifier starts with the
user/date prefix, the k-th successive generator call — with every returned
identifier inserted as a row before the next call — returns the identifier
with run number `min (k+1) 99`: runs `01, 02, …, 99`, and `99` again on every
later call.  The run number never exceeds 99 and the generator is a total
function (it never errors or wraps). -/
theorem c1_sequence_monotone (hdr : List Str) (rest : List (List Str))
    (c : ReqRowCtx) (username ymd : Str)
    (H : ∀ r ∈ rest, ¬ (orderPref username ymd).isPrefixOf (ridOf r) = true)
    (k : Nat) :
    generate_order_id (seqState hdr rest c username ymd k) username ymd
      = orderPref username ymd ++ pad2 (min (k + 1) 99) := by
  rw [generate_order_id, seqState_maxRun hdr rest c username ymd H k]
  have : min (min k 99 + 1) 99 = min (k + 1) 99 := by omega
  rw [this]

/-- Witness for C1: from an empty Requests table (header only) for user
`"jdoe"`, the second call returns run `02`. -/
theorem c1_witness :
    generate_order_id
      (seqState [['R']] [] ⟨[], ['j'], [], [], [], [], [], []⟩
        ['j', 'd', 'o', 'e'] ['2', '4', '0', '6', '0', '1'] 1)
      ['j', 'd', 'o', 'e'] ['2', '4', '0', '6', '0', '1']
      = orderPref ['j', 'd', 'o', 'e'] ['2', '4', '0', '6', '0', '1'] ++ pad2 (min 2 99) :=
  c1_sequence_monotone _ _ _ _ _ (by simp) 1

-- ---------------------------------------------------------------------------
-- C2: which run number does the generator pick?
-- ---------------------------------------------------------------------------

/-- Concrete username for the C2 scenario. -/
def c2User : Str := ['a']

/-- Concrete date for the C2 scenario. -/
def c2Ymd : Str := ['2', '5', '0', '1', '0', '1']

/-- Concrete Requests grid for the C2 scenario: a header row plus one data
row whose identifier is `A250101-02` — the set of used run numbers for the
prefix is `{2}`, leaving a gap at 1. -/
def c2Table : List (List Str) :=
  [[['R']],
   mkReqRow ⟨[], ['a'], [], [], [], [], [], []⟩ (orderPref c2User c2Ymd ++ pad2 2)]

/-- Counterexample to C2: on a table whose only used run for the prefix is
`02`, the generator returns run `03` even though run `01` is unused — so the
returned run number is NOT the smallest unused value in `[1,99]` (the
smallest unused is 1, and the generator skips it). -/
theorem c2_counterexample :
    generate_order_id c2Table c2User c2Ymd = orderPref c2User c2Ymd ++ pad2 3 ∧
    (∀ r ∈ c2Table.drop 1, ridOf r ≠ orderPref c2User c2Ymd ++ pad2 1) ∧
    orderPref c2User c2Ymd ++ pad2 3 ≠ orderPref c2User c2Ymd ++ pad2 1 := by
  refine ⟨by decide, by decide, by decide⟩

/-- C2 as amended: the run number `m` of the generated identifier is not the
smallest unused value in `[1,99]`, but `min(max used run + 1, 99)`: the least
value of `[1,99]` strictly greater than the run number contributed by every
scanned row (clamped at 99).  Stated as: `m` lies in `[1,99]`, every scanned
row's run is below `m` unless the clamp `m = 99` is active, and `m` is the
least such bound. -/
theorem c2_next_run_least_upper (vals : List (List Str)) (username ymd : Str) :
    ∃ m : Nat,
      generate_order_id vals username ymd = orderPref username ymd ++ pad2 m ∧
      1 ≤ m ∧ m ≤ 99 ∧
      (∀ r ∈ vals.drop 1,
        runOfRid (orderPref username ymd) (ridOf r) < m ∨ m = 99) ∧
      (∀ n, 1 ≤ n →
        (∀ r ∈ vals.drop 1, runOfRid (orderPref username ymd) (ridOf r) < n) →
        m ≤ n) := by
  refine ⟨min (maxRun (vals.drop 1) (orderPref username ymd) + 1) 99,
    rfl, by omega, by omega, ?_, ?_⟩
  · intro r hr
    rcases Nat.lt_or_ge (maxRun (vals.drop 1) (orderPref username ymd)) 99 with h | h
    · left
      have := mem_le_maxRun (vals.drop 1) (orderPref username ymd) r hr
      omega
    · right
      omega
  · intro n hn hall
    have := maxRun_lt (vals.drop 1) (orderPref username ymd) n (by omega) hall
    omega

/-- Witness for the amended C2 at the concrete C2 table. -/
theorem c2_witness :
    ∃ m : Nat,
      generate_order_id c2Table c2User c2Ymd = orderPref c2User c2Ymd ++ pad2 m ∧
      1 ≤ m ∧ m ≤ 99 ∧
      (∀ r ∈ c2Table.drop 1,
        runOfRid (orderPref c2User c2Ymd) (ridOf r) < m ∨ m = 99) ∧
      (∀ n, 1 ≤ n →
        (∀ r ∈ c2Table.drop 1, runOfRid (orderPref c2User c2Ymd) (ridOf r) < n) →
        m ≤ n) :=
  c2_next_run_least_upper c2Table c2User c2Ymd

-- ---------------------------------------------------------------------------
-- Items table and confirm handler (`page_issue` confirm branch)
-- ---------------------------------------------------------------------------

/-- One data row of the normalized Items dataframe (`_read_items_df` after
`_normalize`).  `stockv` is the numeric stock after `_to_num` (meaningful
only when the frame has a `stock` column); `iname` likewise for `itemname`. -/
structure ItemRow where
  code : Str
  iname : Str
  stockv : ℚ
deriving DecidableEq

/-- The normalized Items dataframe: whether a column normalizing to `stock`
(resp. `itemname`) exists, and the data rows keyed by the `itemcode` column
(assumed present — every code path of the confirm handler filters on it). -/
structure ItemsDF where
  hasStock : Bool
  hasName : Bool
  rows : List ItemRow
deriving DecidableEq

/-- `full_items[full_items["itemcode"].astype(str)==code].head(1)`. -/
def findItem (items : ItemsDF) (c : Str) : Option ItemRow :=
  items.rows.find? (fun r => r.code == c)

/-- `float(....head(1).get("stock", pd.Series([0])).iloc[0] or 0)`:
if the frame has no stock column the default series yields 0 for every code;
if it has one, `.iloc[0]` on an empty filtered frame raises (modelled as
`none`). -/
def stockOf (items : ItemsDF) (c : Str) : Option ℚ :=
  if items.hasStock = true then (findItem items c).map (fun r => r.stockv)
  else some 0

/-- `str(....head(1).get("itemname", pd.Series([""])).iloc[0])`, same shape. -/
def nameOf (items : ItemsDF) (c : Str) : Option Str :=
  if items.hasName = true then (findItem items c).map (fun r => r.iname)
  else some []

/-- The Streamlit session selection state: `sel_map` and `qty_map`. -/
structure SessionMaps where
  sel : List (Str × Bool)
  qty : List (Str × Int)
deriving DecidableEq

/-- `int(current_map.get(c, 0))`. -/
def lookupQty (m : List (Str × Int)) (c : Str) : Int :=
  ((m.find? (fun p => p.1 == c)).map Prod.snd).getD 0

/-- `pairs = [(c, int(current_map.get(c, 0))) for c in codes if int(current_map.get(c, 0)) > 0]`. -/
def pairsOf (codes : List Str) (qtyMap : List (Str × Int)) : List (Str × Int) :=
  codes.filterMap (fun c =>
    if 0 < lookupQty qtyMap c then some (c, lookupQty qtyMap c) else none)

/-- One entry of the `insufficient` list: `(code, name, available, requested)`. -/
abbrev FailLine := Str × Str × ℚ × Int

/-- The `insufficient` collection loop: for each pair look up the available
stock, and if `qty > have` record `(code, name, have, qty)`; a pandas
`.iloc[0]` failure anywhere aborts the handler (modelled as `none`). -/
def insufficientOf (items : ItemsDF) : List (Str × Int) → Option (List FailLine)
  | [] => some []
  | (c, q) :: rest =>
    (stockOf items c).bind (fun hv =>
      if (q : ℚ) > hv then
        (nameOf items c).bind (fun nm =>
          (insufficientOf items rest).map (fun l => (c, nm, hv, q) :: l))
      else insufficientOf items rest)

/-- The two remote tables mutated by the confirm handler. -/
structure SheetsStore where
  requests : List (List Str)
  txs : List (List Str)
deriving DecidableEq

/-- Source constant `WRITE_TRANSACTIONS = True`. -/
def WRITE_TRANSACTIONS : Bool := true

/-- Source constant `DEDUCT_STOCK_ON_REQUEST = False` (the stock-deduction
branch of the handler is dead code under this setting and is not modelled). -/
def DEDUCT_STOCK_ON_REQUEST : Bool := false

/-- `"Pending"` status cell. -/
def pendingStr : Str := ['P', 'e', 'n', 'd', 'i', 'n', 'g']

/-- `"REQ"` transaction-type cell. -/
def reqStr : Str := ['R', 'E', 'Q']

/-- Decimal rendering of the integer qty cell. -/
def natDigitsStr (n : Nat) : Str := Nat.toDigits 10 n

/-- Python `str`/cell serialization of an int qty. -/
def intStr (i : Int) : Str :=
  if i < 0 then '-' :: natDigitsStr i.natAbs else natDigitsStr i.toNat

/-- The row-building loop: one Requests row and one Transactions row per
pair, from `item_row = full_items[...].head(1).iloc[0]` (raising — `none` —
when the code is absent); `item_row.get("itemname")` is `None` when the
frame has no itemname column (modelled as the empty cell). -/
def buildRows (items : ItemsDF) (now oid un bc : Str) :
    List (Str × Int) → Option (List (List Str) × List (List Str))
  | [] => some ([], [])
  | (c, q) :: rest =>
    (findItem items c).bind (fun ir =>
      (buildRows items now oid un bc rest).map (fun rt =>
        ([now, oid, un, bc, ir.code, (if items.hasName = true then ir.iname else []),
           intStr q, pendingStr, []] :: rt.1,
         [now, oid, un, bc, ir.code, (if items.hasName = true then ir.iname else []),
           intStr q, reqStr, []] :: rt.2)))

/-- Outcome reported by the confirm handler. -/
inductive ConfirmOutcome where
  | exn : ConfirmOutcome
  | noQty : ConfirmOutcome
  | insufficient : List FailLine → ConfirmOutcome
  | saved : Str → Nat → ConfirmOutcome
  | saveError : ConfirmOutcome
deriving DecidableEq

/-- The confirm branch of `page_issue`, from the `ยืนยันการเบิก` button press to
the success/error report: validation against stock, id generation, row
building, and the `try` block appending to Requests then Transactions.
`reqFails` / `txFails` inject an `append_rows` exception on the respective
table.  Returns the store, the session maps, and the reported outcome. -/
def confirmFlow (items : ItemsDF) (store : SheetsStore) (chosenCodes : List Str)
    (maps : SessionMaps) (username bc ymd now : Str) (reqFails txFails : Bool) :
    SheetsStore × SessionMaps × ConfirmOutcome :=
  let pairs := pairsOf chosenCodes maps.qty
  if pairs = [] then (store, maps, ConfirmOutcome.noQty)
  else
    match insufficientOf items pairs with
    | none => (store, maps, ConfirmOutcome.exn)
    | some fails =>
      if fails ≠ [] then (store, maps, ConfirmOutcome.insufficient fails)
      else
        let oid := generate_order_id store.requests username ymd
        match buildRows items now oid username bc pairs with
        | none => (store, maps, ConfirmOutcome.exn)
        | some rt =>
          if reqFails = true then (store, maps, ConfirmOutcome.saveError)
          else
            let store1 : SheetsStore := ⟨store.requests ++ rt.1, store.txs⟩
            if WRITE_TRANSACTIONS = true ∧ rt.2 ≠ [] then
              if txFails = true then (store1, maps, ConfirmOutcome.saveError)
              else (⟨store1.requests, store1.txs ++ rt.2⟩, ⟨[], []⟩,
                ConfirmOutcome.saved oid rt.1.length)
            else (store1, ⟨[], []⟩, ConfirmOutcome.saved oid rt.1.length)

-- ---------------------------------------------------------------------------
-- Lemmas about the confirm handler
-- ---------------------------------------------------------------------------

theorem buildRows_lengths (items : ItemsDF) (now oid un bc : Str) :
    ∀ (pairs : List (Str × Int)) (rt : List (List Str) × List (List Str)),
      buildRows items now oid un bc pairs = some rt →
      rt.1.length = pairs.length ∧ rt.2.length = pairs.length := by
  intro pairs
  induction pairs with
  | nil =>
    intro rt h
    simp only [buildRows, Option.some.injEq] at h
    subst h
    exact ⟨rfl, rfl⟩
  | cons p rest ih =>
    intro rt h
    obtain ⟨c, q⟩ := p
    simp only [buildRows] at h
    cases hf : findItem items c with
    | none => rw [hf] at h; simp at h
    | some ir =>
      rw [hf] at h
      cases hb : buildRows items now oid un bc rest with
      | none => rw [hb] at h; simp at h
      | some rt' =>
        rw [hb] at h
        simp only [Option.some_bind, Option.map_some', Option.some.injEq] at h
        subst h
        have := ih rt' hb
        simp only [List.length_cons, List.length]
        omega

theorem pairsOf_mem_pos (codes : List Str) (m : List (Str × Int)) (c : Str)
    (q : Int) (h : (c, q) ∈ pairsOf codes m) : 0 < q := by
  rw [pairsOf, List.mem_filterMap] at h
  obtain ⟨c', _, hc'⟩ := h
  by_cases hq : 0 < lookupQty m c'
  · rw [if_pos hq] at hc'
    cases hc'
    exact hq
  · rw [if_neg hq] at hc'
    cases hc'

theorem pairsOf_all_pos (codes : List Str) (m : List (Str × Int))
    (h : ∀ c ∈ codes, 0 < lookupQty m c) :
    pairsOf codes m = codes.map (fun c => (c, lookupQty m c)) := by
  induction codes with
  | nil => rfl
  | cons c rest ih =>
    rw [pairsOf, List.filterMap_cons, if_pos (h c (List.mem_cons_self c rest)),
      List.map_cons]
    rw [pairsOf] at ih
    rw [ih (fun c' hc' => h c' (List.mem_cons_of_mem c hc'))]

theorem insufficientOf_mem (items : ItemsDF) :
    ∀ (pairs : List (Str × Int)) (L : List FailLine),
      insufficientOf items pairs = some L →
      ∀ e : FailLine, e ∈ L ↔
        ∃ c q s nm, (c, q) ∈ pairs ∧ stockOf items c = some s ∧ (q : ℚ) > s ∧
          nameOf items c = some nm ∧ e = (c, nm, s, q) := by
  intro pairs
  induction pairs with
  | nil =>
    intro L h e
    simp only [insufficientOf, Option.some.injEq] at h
    subst h
    simp
  | cons p rest ih =>
    intro L h e
    obtain ⟨c, q⟩ := p
    simp only [insufficientOf] at h
    cases hs : stockOf items c with
    | none => rw [hs] at h; simp at h
    | some s =>
      rw [hs] at h
      simp only [Option.some_bind] at h
      by_cases hqs : (q : ℚ) > s
      · rw [if_pos hqs] at h
        cases hn : nameOf items c with
        | none => rw [hn] at h; simp at h
        | some nm =>
          rw [hn] at h
          simp only [Option.some_bind] at h
          cases hr : insufficientOf items rest with
          | none => rw [hr] at h; simp at h
          | some L' =>
            rw [hr] at h
            simp only [Option.map_some', Option.some.injEq] at h
            subst h
            rw [List.mem_cons]
            constructor
            · rintro (rfl | hmem)
              · exact ⟨c, q, s, nm, List.mem_cons_self _ _, hs, hqs, hn, rfl⟩
              · obtain ⟨c', q', s', nm', hp', hs', hqs', hn', he'⟩ :=
                  (ih L' hr e).mp hmem
                exact ⟨c', q', s', nm', List.mem_cons_of_mem _ hp', hs', hqs', hn', he'⟩
            · rintro ⟨c', q', s', nm', hp', hs', hqs', hn', he'⟩
              rcases List.mem_cons.mp hp' with hhead | htail
              · obtain ⟨rfl, rfl⟩ := Prod.mk.injEq .. ▸ hhead
                rw [hs] at hs'
                cases hs'
                rw [hn] at hn'
                cases hn'
                exact Or.inl he'
              · exact Or.inr ((ih L' hr e).mpr ⟨c', q', s', nm', htail, hs', hqs', hn', he'⟩)
      · rw [if_neg hqs] at h
        rw [ih L h e]
        constructor
        · rintro ⟨c', q', s', nm', hp', hs', hqs', hn', he'⟩
          exact ⟨c', q', s', nm', List.mem_cons_of_mem _ hp', hs', hqs', hn', he'⟩
        · rintro ⟨c', q', s', nm', hp', hs', hqs', hn', he'⟩
          rcases List.mem_cons.mp hp' with hhead | htail
          · obtain ⟨rfl, rfl⟩ := Prod.mk.injEq .. ▸ hhead
            rw [hs] at hs'
            cases hs'
            exact absurd hqs' hqs
          · exact ⟨c', q', s', nm', htail, hs', hqs', hn', he'⟩

theorem confirmFlow_persist_shape (items : ItemsDF) (store : SheetsStore)
    (chosenCodes : List Str) (maps : SessionMaps) (username bc ymd now : Str)
    (rf tf : Bool)
    (hp : pairsOf chosenCodes maps.qty ≠ [])
    (hv : insufficientOf items (pairsOf chosenCodes maps.qty) = some [])
    (rt : List (List Str) × List (List Str))
    (hb : buildRows items now (generate_order_id store.requests username ymd)
      username bc (pairsOf chosenCodes maps.qty) = some rt) :
    confirmFlow items store chosenCodes maps username bc ymd now rf tf =
      if rf = true then (store, maps, ConfirmOutcome.saveError)
      else if tf = true then
        (⟨store.requests ++ rt.1, store.txs⟩, maps, ConfirmOutcome.saveError)
      else
        (⟨store.requests ++ rt.1, store.txs ++ rt.2⟩, ⟨[], []⟩,
          ConfirmOutcome.saved (generate_order_id store.requests username ymd)
            rt.1.length) := by
  have htx : rt.2 ≠ [] := by
    have hlen := (buildRows_lengths items now _ username bc _ rt hb).2
    intro hc
    rw [hc] at hlen
    simp only [List.length_nil] at hlen
    exact hp (List.eq_nil_of_length_eq_zero hlen.symm)
  have hnn : ¬ (([] : List FailLine) ≠ []) := fun hc => hc rfl
  simp only [confirmFlow, if_neg hp, hv, hb, if_neg hnn]
  cases rf with
  | true => rfl
  | false =>
    cases tf with
    | true => simp [WRITE_TRANSACTIONS, htx]
    | false => simp [WRITE_TRANSACTIONS, htx]

-- ---------------------------------------------------------------------------
-- C5: validation completeness
-- ---------------------------------------------------------------------------

/-- C5: when the chosen lines with positive quantity are nonempty and the
stock scan completes with a nonempty `insufficient` list, the confirm handler
stops with that rejection — both tables untouched, session maps untouched,
whatever the storage behaviour would have been — and the rejection list
contains one `(code, name, available, requested)` entry for exactly the
failing lines (every pair whose requested quantity exceeds its available
stock), not only the first. -/
theorem c5_validation_complete (items : ItemsDF) (store : SheetsStore)
    (chosenCodes : List Str) (maps : SessionMaps) (username bc ymd now : Str)
    (rf tf : Bool) (fails : List FailLine)
    (hp : pairsOf chosenCodes maps.qty ≠ [])
    (hv : insufficientOf items (pairsOf chosenCodes maps.qty) = some fails)
    (hne : fails ≠ []) :
    confirmFlow items store chosenCodes maps username bc ymd now rf tf
      = (store, maps, ConfirmOutcome.insufficient fails) ∧
    ∀ e : FailLine, e ∈ fails ↔
      ∃ c q s nm, (c, q) ∈ pairsOf chosenCodes maps.qty ∧
        stockOf items c = some s ∧ (q : ℚ) > s ∧ nameOf items c = some nm ∧
        e = (c, nm, s, q) := by
  constructor
  · simp only [confirmFlow, if_neg hp, hv, if_pos hne]
  · exact insufficientOf_mem items _ fails hv

/-- Concrete Items frame for the C5 witness: three items, two of them with
zero stock. -/
def c5Items : ItemsDF :=
  ⟨true, true, [⟨['A'], ['a'], 10⟩, ⟨['B'], ['b'], 0⟩, ⟨['C'], ['c'], 0⟩]⟩

/-- Session maps for the C5 witness: all three items chosen with positive
quantities. -/
def c5Maps : SessionMaps :=
  ⟨[(['A'], true), (['B'], true), (['C'], true)],
   [(['A'], 3), (['B'], 1), (['C'], 2)]⟩

/-- Store for the C5 witness: Requests has a header row only. -/
def c5Store : SheetsStore := ⟨[[['R']]], []⟩

/-- The rejection entries the C5 witness expects: exactly the two
insufficient lines. -/
def c5Fails : List FailLine := [(['B'], ['b'], 0, 1), (['C'], ['c'], 0, 2)]

/-- Witness for C5: 3 chosen lines, 2 exceeding stock — the rejection lists
exactly those 2 lines and nothing is persisted. -/
theorem c5_witness :
    confirmFlow c5Items c5Store [['A'], ['B'], ['C']] c5Maps
        ['u'] ['b'] ['2', '4', '0', '6', '0', '1'] ['t'] false false
      = (c5Store, c5Maps, ConfirmOutcome.insufficient c5Fails) ∧
    ∀ e : FailLine, e ∈ c5Fails ↔
      ∃ c q s nm, (c, q) ∈ pairsOf [['A'], ['B'], ['C']] c5Maps.qty ∧
        stockOf c5Items c = some s ∧ (q : ℚ) > s ∧ nameOf c5Items c = some nm ∧
        e = (c, nm, s, q) :=
  c5_validation_complete c5Items c5Store [['A'], ['B'], ['C']] c5Maps
    ['u'] ['b'] ['2', '4', '0', '6', '0', '1'] ['t'] false false c5Fails
    (by decide) (by decide) (by decide)

-- ---------------------------------------------------------------------------
-- C4: clear-on-commit / retain-on-failure, and C3: secondary append failure
-- ---------------------------------------------------------------------------

/-- C4: once a submission passes validation, a fully successful persistence
clears both Selection Line maps (`sel_map` and `qty_map`), while any storage
failure during persistence — primary or secondary append — leaves both maps
exactly as they were just before the attempt, so the user can retry without
re-selecting. -/
theorem c4_clear_on_commit_retain_on_failure (items : ItemsDF)
    (store : SheetsStore) (chosenCodes : List Str) (maps : SessionMaps)
    (username bc ymd now : Str)
    (hp : pairsOf chosenCodes maps.qty ≠ [])
    (hv : insufficientOf items (pairsOf chosenCodes maps.qty) = some [])
    (rt : List (List Str) × List (List Str))
    (hb : buildRows items now (generate_order_id store.requests username ymd)
      username bc (pairsOf chosenCodes maps.qty) = some rt) :
    (confirmFlow items store chosenCodes maps username bc ymd now false false).2.1
      = ⟨[], []⟩ ∧
    ∀ rf tf : Bool, rf = true ∨ tf = true →
      (confirmFlow items store chosenCodes maps username bc ymd now rf tf).2.1
        = maps := by
  constructor
  · rw [confirmFlow_persist_shape items store chosenCodes maps username bc ymd
      now false false hp hv rt hb]
    rfl
  · intro rf tf hor
    rw [confirmFlow_persist_shape items store chosenCodes maps username bc ymd
      now rf tf hp hv rt hb]
    cases rf with
    | true => rfl
    | false =>
      cases tf with
      | true => rfl
      | false =>
        rcases hor with h | h <;> exact absurd h (by simp)

/-- Shared concrete scenario that passes validation: one item `A` with stock
10, chosen with quantity 3. -/
def exItems : ItemsDF := ⟨true, true, [⟨['A'], ['a'], 10⟩]⟩

/-- Session maps of the shared scenario. -/
def exMaps : SessionMaps := ⟨[(['A'], true)], [(['A'], 3)]⟩

/-- Store of the shared scenario: Requests holds a header row only. -/
def exStore : SheetsStore := ⟨[[['R']]], []⟩

/-- The date of the shared scenario. -/
def exYmd : Str := ['2', '4', '0', '6', '0', '1']

/-- The order id the shared scenario generates. -/
def exOid : Str := generate_order_id exStore.requests ['u'] exYmd

/-- The rows the shared scenario builds: one Requests row and one
Transactions row. -/
def exRt : List (List Str) × List (List Str) :=
  ([[['t'], exOid, ['u'], ['b'], ['A'], ['a'], ['3'], pendingStr, []]],
   [[['t'], exOid, ['u'], ['b'], ['A'], ['a'], ['3'], reqStr, []]])

/-- Witness for C4 at the shared concrete scenario. -/
theorem c4_witness :
    (confirmFlow exItems exStore [['A']] exMaps ['u'] ['b'] exYmd ['t']
        false false).2.1 = ⟨[], []⟩ ∧
    ∀ rf tf : Bool, rf = true ∨ tf = true →
      (confirmFlow exItems exStore [['A']] exMaps ['u'] ['b'] exYmd ['t']
        rf tf).2.1 = exMaps :=
  c4_clear_on_commit_retain_on_failure exItems exStore [['A']] exMaps
    ['u'] ['b'] exYmd ['t'] (by decide) (by decide) exRt (by decide)

/-- Counterexample to C3: in the shared scenario with the primary append
succeeding and the secondary (Transactions) append failing, the handler
reports `saveError` — the very same hard-failure outcome it reports when the
primary append itself fails — and not any success outcome, even though the
appended Requests rows persist (no rollback) and the session maps are
retained.  There is no degraded-success report. -/
theorem c3_counterexample :
    (confirmFlow exItems exStore [['A']] exMaps ['u'] ['b'] exYmd ['t']
        false true).2.2 = ConfirmOutcome.saveError ∧
    (confirmFlow exItems exStore [['A']] exMaps ['u'] ['b'] exYmd ['t']
        true false).2.2 = ConfirmOutcome.saveError ∧
    (confirmFlow exItems exStore [['A']] exMaps ['u'] ['b'] exYmd ['t']
        false true).1.requests = exStore.requests ++ exRt.1 ∧
    (confirmFlow exItems exStore [['A']] exMaps ['u'] ['b'] exYmd ['t']
        false true).2.1 = exMaps ∧
    ∀ oid n, ConfirmOutcome.saveError ≠ ConfirmOutcome.saved oid n :=
  ⟨by decide, by decide, by decide, by decide,
   fun oid n h => ConfirmOutcome.noConfusion h⟩

/-- C3 as amended: when the primary Requests append succeeds and the
secondary Transactions append fails, the primary append is not rolled back
(the new Requests rows persist in the store) and the Selection Lines are
retained, but the outcome reported to the user is the same hard save-error
as for a primary failure — not a degraded success. -/
theorem c3_secondary_failure_hard_error (items : ItemsDF) (store : SheetsStore)
    (chosenCodes : List Str) (maps : SessionMaps) (username bc ymd now : Str)
    (hp : pairsOf chosenCodes maps.qty ≠ [])
    (hv : insufficientOf items (pairsOf chosenCodes maps.qty) = some [])
    (rt : List (List Str) × List (List Str))
    (hb : buildRows items now (generate_order_id store.requests username ymd)
      username bc (pairsOf chosenCodes maps.qty) = some rt) :
    confirmFlow items store chosenCodes maps username bc ymd now false true
      = (⟨store.requests ++ rt.1, store.txs⟩, maps, ConfirmOutcome.saveError) := by
  rw [confirmFlow_persist_shape items store chosenCodes maps username bc ymd
    now false true hp hv rt hb]
  rfl

/-- Witness for the amended C3 at the shared concrete scenario. -/
theorem c3_witness :
    confirmFlow exItems exStore [['A']] exMaps ['u'] ['b'] exYmd ['t']
        false true
      = (⟨exStore.requests ++ exRt.1, exStore.txs⟩, exMaps,
          ConfirmOutcome.saveError) :=
  c3_secondary_failure_hard_error exItems exStore [['A']] exMaps
    ['u'] ['b'] exYmd ['t'] (by decide) (by decide) exRt (by decide)

-- ---------------------------------------------------------------------------
-- C10: Items table without a stock column
-- ---------------------------------------------------------------------------

theorem insufficientOf_no_stock (items : ItemsDF) (hs : items.hasStock = false) :
    ∀ pairs : List (Str × Int),
      (∀ p ∈ pairs, 0 < p.2) →
      (∀ p ∈ pairs, (findItem items p.1).isSome = true) →
      ∃ L, insufficientOf items pairs = some L ∧ L.length = pairs.length ∧
        ∀ e ∈ L, e.2.2.1 = (0 : ℚ) := by
  intro pairs
  induction pairs with
  | nil => exact fun _ _ => ⟨[], rfl, rfl, by simp⟩
  | cons p rest ih =>
    intro hpos hfind
    obtain ⟨c, q⟩ := p
    obtain ⟨L', hL', hlen', hall'⟩ :=
      ih (fun p hp => hpos p (List.mem_cons_of_mem _ hp))
        (fun p hp => hfind p (List.mem_cons_of_mem _ hp))
    have hstock : stockOf items c = some 0 := by
      rw [stockOf, if_neg]
      simp [hs]
    have hq : (q : ℚ) > 0 := by
      have h0 := hpos (c, q) (List.mem_cons_self _ _)
      exact_mod_cast h0
    have hname : ∃ nm, nameOf items c = some nm := by
      rw [nameOf]
      by_cases hn : items.hasName = true
      · rw [if_pos hn]
        obtain ⟨ir, hir⟩ := Option.isSome_iff_exists.mp
          (hfind (c, q) (List.mem_cons_self _ _))
        exact ⟨ir.iname, by rw [hir]; rfl⟩
      · rw [if_neg hn]
        exact ⟨[], rfl⟩
    obtain ⟨nm, hnm⟩ := hname
    refine ⟨(c, nm, 0, q) :: L', ?_, by simp [hlen'], ?_⟩
    · simp only [insufficientOf, hstock, Option.some_bind, if_pos hq, hnm,
        hL', Option.map_some']
    · intro e he
      rcases List.mem_cons.mp he with rfl | he'
      · rfl
      · exact hall' e he'

/-- C10: if the normalized Items frame has an item-code column but no column
normalizing to `stock`, the confirm handler's stock lookup yields 0 for every
code, so a submission whose chosen lines (all present in the Items frame)
all carry positive quantity is rejected as insufficient stock — the
rejection lists every line with available = 0 — and no rows are appended to
Requests or Transactions (the store is returned unchanged), whatever the
storage behaviour would have been. -/
theorem c10_missing_stock_rejects_all (items : ItemsDF) (store : SheetsStore)
    (chosenCodes : List Str) (maps : SessionMaps) (username bc ymd now : Str)
    (rf tf : Bool)
    (hs : items.hasStock = false)
    (hne : chosenCodes ≠ [])
    (hq : ∀ c ∈ chosenCodes, 0 < lookupQty maps.qty c)
    (hf : ∀ c ∈ chosenCodes, (findItem items c).isSome = true) :
    ∃ L, confirmFlow items store chosenCodes maps username bc ymd now rf tf
        = (store, maps, ConfirmOutcome.insufficient L) ∧ L ≠ [] ∧
      ∀ e ∈ L, e.2.2.1 = (0 : ℚ) := by
  have hpairs : pairsOf chosenCodes maps.qty
      = chosenCodes.map (fun c => (c, lookupQty maps.qty c)) :=
    pairsOf_all_pos _ _ hq
  have hp : pairsOf chosenCodes maps.qty ≠ [] := by
    rw [hpairs]
    intro hcon
    exact hne (by simpa using hcon)
  have hposall : ∀ p ∈ pairsOf chosenCodes maps.qty, 0 < p.2 := by
    intro p hp'
    exact pairsOf_mem_pos chosenCodes maps.qty p.1 p.2 (by simpa using hp')
  have hfindall : ∀ p ∈ pairsOf chosenCodes maps.qty,
      (findItem items p.1).isSome = true := by
    intro p hp'
    rw [hpairs] at hp'
    obtain ⟨c, hc, he⟩ := List.mem_map.mp hp'
    rw [← he]
    exact hf c hc
  obtain ⟨L, hL, hlen, hall⟩ :=
    insufficientOf_no_stock items hs _ hposall hfindall
  have hLne : L ≠ [] := by
    intro hc
    rw [hc] at hlen
    simp only [List.length_nil] at hlen
    exact hp (List.eq_nil_of_length_eq_zero hlen.symm)
  refine ⟨L, ?_, hLne, hall⟩
  simp only [confirmFlow, if_neg hp, hL, if_pos hLne]

/-- Items frame for the C10 witness: item-code column present, no stock
column. -/
def c10Items : ItemsDF := ⟨false, true, [⟨['A'], ['a'], 7⟩]⟩

/-- Session maps for the C10 witness. -/
def c10Maps : SessionMaps := ⟨[(['A'], true)], [(['A'], 2)]⟩

/-- Witness for C10 at a concrete scenario: one chosen line with quantity 2
against an Items frame with no stock column. -/
theorem c10_witness :
    ∃ L, confirmFlow c10Items exStore [['A']] c10Maps ['u'] ['b'] exYmd ['t']
        false false
      = (exStore, c10Maps, ConfirmOutcome.insufficient L) ∧ L ≠ [] ∧
      ∀ e ∈ L, e.2.2.1 = (0 : ℚ) :=
  c10_missing_stock_rejects_all c10Items exStore [['A']] c10Maps
    ['u'] ['b'] exYmd ['t'] false false (by decide) (by decide) (by decide)
    (by decide)

-- ---------------------------------------------------------------------------
-- C7: `_append_req` and retry behaviour
-- ---------------------------------------------------------------------------

/-- Classification of a gspread `APIError` raised by `append_rows`:
a rate-limit (HTTP 429-class) error or any other failure. -/
inductive ApiError where
  | rateLimited : ApiError
  | other : Str → ApiError
deriving DecidableEq

/-- `_append_req(ss, rows)`: after `_ensure_req_sheet` (table assumed already
ensured, header present) the function calls `ws.append_rows(rows, ...)` once.
The external API's behaviour is an oracle `api`, giving the outcome of the
k-th attempt (k = 0, 1, …).  The embedding returns the resulting table (or
the propagated raw error, unwrapped) together with the number of
`append_rows` attempts actually made — the source makes exactly one. -/
def append_req_call (table : List (List Str)) (rows : List (List Str))
    (api : Nat → Except ApiError Unit) :
    Except ApiError (List (List Str)) × Nat :=
  match api 0 with
  | Except.ok _ => (Except.ok (table ++ rows), 1)
  | Except.error e => (Except.error e, 1)

/-- The API oracle of the C7 counterexample: the first attempt fails with a
rate-limit error, every later attempt would succeed. -/
def c7Api : Nat → Except ApiError Unit :=
  fun n => if n = 0 then Except.error ApiError.rateLimited else Except.ok ()

/-- Counterexample to C7: when `append_rows` raises a rate-limit-class error
on the first attempt, `_append_req` surfaces the raw error after exactly one
attempt — no retry happens even though the very next attempt would have
succeeded, and no backoff or `StorageError` wrapping exists anywhere in the
function. -/
theorem c7_counterexample :
    (append_req_call [[['R']]] [[['x']]] c7Api).1
      = Except.error ApiError.rateLimited ∧
    (append_req_call [[['R']]] [[['x']]] c7Api).2 = 1 ∧
    c7Api 1 = Except.ok () :=
  ⟨rfl, rfl, rfl⟩

/-- C7 as amended: `_append_req` performs exactly one `append_rows` attempt;
every failure — rate-limit-class or otherwise — propagates immediately as
the raw underlying error (no retry, no exponential backoff, no `StorageError`
wrapper naming the table and operation), and on success the rows are
appended once. -/
theorem c7_no_retry_single_attempt (table rows : List (List Str))
    (api : Nat → Except ApiError Unit) :
    (append_req_call table rows api).2 = 1 ∧
    (∀ e, api 0 = Except.error e →
      (append_req_call table rows api).1 = Except.error e) ∧
    (api 0 = Except.ok () →
      (append_req_call table rows api).1 = Except.ok (table ++ rows)) := by
  refine ⟨?_, ?_, ?_⟩
  · rw [append_req_call]
    cases api 0 with
    | ok u => rfl
    | error e => rfl
  · intro e he
    rw [append_req_call, he]
  · intro he
    rw [append_req_call, he]

/-- Witness for the amended C7 at the concrete oracle. -/
theorem c7_witness :
    (append_req_call [[['R']]] [[['x']]] c7Api).2 = 1 ∧
    (∀ e, c7Api 0 = Except.error e →
      (append_req_call [[['R']]] [[['x']]] c7Api).1 = Except.error e) ∧
    (c7Api 0 = Except.ok () →
      (append_req_call [[['R']]] [[['x']]] c7Api).1
        = Except.ok ([[['R']]] ++ [[['x']]])) :=
  c7_no_retry_single_attempt [[['R']]] [[['x']]] c7Api

-- ---------------------------------------------------------------------------
-- C8: `_verify_pw` and the missing-bcrypt case
-- ---------------------------------------------------------------------------

/-- Python `str.strip()` on a `String`, via the character-list model. -/
def trimS (s : String) : String := String.mk (trimStr s.data)

/-- `_verify_pw(row, raw)`: `ph`/`pw` are the stripped `passwordhash` and
`password` cells; `bcryptAvail` is whether the optional bcrypt import
succeeded; `checkpw raw ph` is the external `bcrypt.checkpw` (`none` models
it raising).  The source tries the hash check only when `ph` is nonempty and
bcrypt is available, swallows any `checkpw` exception, then falls back to
plain equality against the plaintext `password` cell, else returns `False`.
The codomain is a plain `Bool`: no error channel of any kind exists. -/
def verify_pw (rowHash rowPw raw : String) (bcryptAvail : Bool)
    (checkpw : String → String → Option Bool) : Bool :=
  let ph := trimS rowHash
  let pw := trimS rowPw
  if ph ≠ "" ∧ bcryptAvail = true then
    match checkpw raw ph with
    | some b => b
    | none => if pw ≠ "" then raw == pw else false
  else if pw ≠ "" then raw == pw else false

/-- Counterexample to C8: with a stored hash, no plaintext password and no
bcrypt available, `_verify_pw` returns plain `false` — exactly the value it
returns for an ordinary wrong credential (here: no hash stored either) —
even under a `checkpw` that would have accepted the password.  No distinct
configuration error is surfaced; the result type has no error at all. -/
theorem c8_counterexample :
    verify_pw "someHash" "" "secret" false (fun _ _ => some true) = false ∧
    verify_pw "" "" "secret" false (fun _ _ => some true) = false ∧
    verify_pw "someHash" "" "secret" false (fun _ _ => some true)
      = verify_pw "" "" "secret" false (fun _ _ => some true) :=
  ⟨rfl, rfl, rfl⟩

/-- C8 as amended: when a password hash is present but no hashing capability
is available, credential verification silently behaves exactly as if no hash
were stored at all — it falls back to plaintext comparison when a plaintext
password exists and to a plain `false` otherwise — rather than surfacing a
distinct configuration error. -/
theorem c8_missing_bcrypt_silent_fallback (rowHash rowPw raw : String)
    (checkpw : String → String → Option Bool) :
    verify_pw rowHash rowPw raw false checkpw
      = verify_pw "" rowPw raw false (fun _ _ => none) := by
  rw [verify_pw, verify_pw]
  simp

-- ---------------------------------------------------------------------------
-- C6: the Column Resolver (`CANON` and `_normalize`)
-- ---------------------------------------------------------------------------

/-- Python `str.lower()` on a `String`, via the character-list model (ASCII
case map, identity on Thai characters — as in CPython for these inputs). -/
def lowerStr (s : String) : String := String.mk (s.data.map Char.toLower)

/-- `str(c).strip().lower()` — the key under which a physical header is
stored in the `lowers` dictionary of `_normalize`. -/
def lowKey (s : String) : String := lowerStr (trimS s)

/-- The `CANON` synonym table, in source declaration order. -/
def CANON : List (String × List String) :=
  [("username", ["username", "user", "บัญชีผู้ใช้", "ชื่อผู้ใช้", "ชื่อเข้าใช้"]),
   ("password", ["password", "รหัสผ่าน"]),
   ("passwordhash", ["passwordhash", "hash", "bcrypt"]),
   ("active", ["active", "enabled", "สถานะ"]),
   ("displayname", ["displayname", "name", "ชื่อ"]),
   ("role", ["role", "สิทธิ์"]),
   ("branchcode", ["branchcode", "branch", "สาขา", "รหัสสาขา", "code"]),
   ("itemcode", ["itemcode", "code", "รหัส", "รหัสสินค้า", "รหัสอุปกรณ์"]),
   ("itemname", ["itemname", "name", "สินค้า", "ชื่อสินค้า", "ชื่ออุปกรณ์", "รายการ"]),
   ("stock", ["stock", "คงเหลือ", "จำนวนคงคลัง"]),
   ("unit", ["unit", "หน่วย", "หน่วยนับ"]),
   ("requestid", ["requestid", "reqid", "orderid", "เลขที่ออเดอร์"]),
   ("txid", ["txid", "orderid"]),
   ("txtime", ["txtime", "time", "datetime", "timestamp"]),
   ("qty", ["qty", "จำนวน"])]

/-- The `lowers` dict comprehension
`{str(c).strip().lower(): c for c in df.columns}` as a lookup function;
a later column with the same key overwrites an earlier one, as in a Python
dict comprehension. -/
def lowersMap (hs : List String) : String → Option String :=
  hs.foldl (fun m c => fun k => if k = lowKey c then some c else m k)
    (fun _ => none)

/-- The inner loop `for a in alts+[canon]: if a.lower() in lowers:
mapping[lowers[a.lower()]] = canon`, threading the `mapping` dict as a
lookup function. -/
def applySyns (hs : List String) (canon : String) :
    List String → (String → Option String) → (String → Option String)
  | [], m => m
  | a :: l, m =>
    match lowersMap hs (lowerStr a) with
    | some orig => applySyns hs canon l (fun k => if k = orig then some canon else m k)
    | none => applySyns hs canon l m

/-- The outer loop `for canon, alts in CANON.items()` building `mapping`. -/
def buildMapping (hs : List String) :
    List (String × List String) → (String → Option String) →
      (String → Option String)
  | [], m => m
  | p :: l, m => buildMapping hs l (applySyns hs p.1 (p.2 ++ [p.1]) m)

/-- The complete `mapping` dict of `_normalize(df)` for header list `hs`. -/
def resolveMap (hs : List String) : String → Option String :=
  buildMapping hs CANON (fun _ => none)

/-- `df.rename(columns=mapping)` restricted to the header labels: each header
is replaced by its mapping value when present, else left untouched. -/
def normalize_headers (hs : List String) : List String :=
  hs.map (fun c => (resolveMap hs c).getD c)

/-- Whether one `CANON` entry has a synonym whose lowering resolves (through
the `lowers` dict) to the physical header `k`. -/
def entryMatches (hs : List String) (k : String) (p : String × List String) : Bool :=
  (p.2 ++ [p.1]).any (fun a => lowersMap hs (lowerStr a) == some k)

theorem applySyns_eval (hs : List String) (canon : String) :
    ∀ (l : List String) (m : String → Option String) (k : String),
      applySyns hs canon l m k =
        if l.any (fun a => lowersMap hs (lowerStr a) == some k) = true then
          some canon
        else m k := by
  intro l
  induction l with
  | nil =>
    intro m k
    simp [applySyns]
  | cons a l ih =>
    intro m k
    cases ha : lowersMap hs (lowerStr a) with
    | some orig =>
      simp only [applySyns, ha]
      rw [ih]
      rw [List.any_cons, ha]
      by_cases hl : (l.any fun a => lowersMap hs (lowerStr a) == some k) = true
      · rw [if_pos hl, if_pos (by rw [hl, Bool.or_true])]
      · have hl2 : (l.any fun a => lowersMap hs (lowerStr a) == some k) = false := by
          revert hl
          cases l.any fun a => lowersMap hs (lowerStr a) == some k <;> simp
        rw [if_neg hl, hl2, Bool.or_false]
        by_cases hok : (some orig == some k) = true
        · have hko : k = orig := (Option.some.inj (eq_of_beq hok)).symm
          rw [if_pos hko, if_pos hok]
        · rw [if_neg (fun hk => hok (by rw [hk]; exact beq_self_eq_true (some orig))), if_neg hok]
    | none =>
      simp only [applySyns, ha]
      rw [ih, List.any_cons, ha]
      simp

theorem buildMapping_eval (hs : List String) :
    ∀ (L : List (String × List String)) (m : String → Option String)
      (k : String),
      buildMapping hs L m k =
        match L.reverse.find? (entryMatches hs k) with
        | some p => some p.1
        | none => m k := by
  intro L
  induction L with
  | nil =>
    intro m k
    simp [buildMapping]
  | cons p L ih =>
    intro m k
    simp only [buildMapping]
    rw [ih, List.reverse_cons, List.find?_append]
    cases hf : L.reverse.find? (entryMatches hs k) with
    | some q => simp
    | none =>
      simp only [Option.none_or]
      rw [applySyns_eval]
      have hfold : ((p.2 ++ [p.1]).any fun a => lowersMap hs (lowerStr a) == some k)
          = entryMatches hs k p := rfl
      rw [hfold]
      by_cases hm : entryMatches hs k p = true
      · rw [if_pos hm]
        simp [List.find?, hm]
      · have hm2 : entryMatches hs k p = false := by
          revert hm
          cases entryMatches hs k p <;> simp
        rw [if_neg hm]
        simp [List.find?, hm2]

/-- Counterexample to C6: the physical header `name` is a synonym of both
`displayname` (declared 5th in `CANON`) and `itemname` (declared 9th), yet
`_normalize` renames it to `itemname` — the canonical field declared LAST
among the matches — not to the first-declared `displayname` the claim
predicts. -/
theorem c6_counterexample :
    normalize_headers [("name" : String)] = [("itemname" : String)] ∧
    (("displayname" : String),
      (["displayname", "name", "ชื่อ"] : List String)) ∈ CANON ∧
    ("name" : String) ∈ (["displayname", "name", "ชื่อ"] : List String) ∧
    (("itemname" : String),
      (["itemname", "name", "สินค้า", "ชื่อสินค้า", "ชื่ออุปกรณ์", "รายการ"] : List String)) ∈ CANON ∧
    ("name" : String) ∈
      (["itemname", "name", "สินค้า", "ชื่อสินค้า", "ชื่ออุปกรณ์", "รายการ"] : List String) ∧
    CANON.findIdx? (fun p => p.1 == ("displayname" : String)) = some 4 ∧
    CANON.findIdx? (fun p => p.1 == ("itemname" : String)) = some 8 ∧
    ("itemname" : String) ≠ ("displayname" : String) := by
  refine ⟨by decide, by decide, by decide, by decide, by decide, by decide,
    by decide, by decide⟩

/-- C6 as amended: for every list of input headers, a header matched by the
synonyms of several canonical fields is renamed to the canonical field that
appears LAST in synonym-table declaration order (the loop overwrites the
`mapping` entry on each later match), and a header matching no synonym is
left untouched: renaming is exactly a lookup of the last matching `CANON`
entry. -/
theorem c6_resolver_last_match_wins (hs : List String) :
    normalize_headers hs = hs.map (fun h =>
      match CANON.reverse.find? (entryMatches hs h) with
      | some p => p.1
      | none => h) := by
  rw [normalize_headers]
  refine congrArg (fun f => List.map f hs) (funext fun h => ?_)
  rw [resolveMap, buildMapping_eval]
  cases CANON.reverse.find? (entryMatches hs h) with
  | some p => rfl
  | none => rfl
